import Mathlib

/-!
Verification development for the Landmark county-records scraper.

The definitions below are a shallow embedding of the two source files
(`stagehand-automation-5.ts` and `lib/s3-upload.ts`, the latter also
holding the HTTP handler).  External effects (browser session, S3
transport) are modelled by explicit oracle environments; the machine
`Date` value of the JavaScript runtime is modelled as a normalized
calendar triple, with `setDate(getDate() + 1)` becoming `nextDay` and
timestamp comparison becoming comparison of a day-numbering function.
-/

namespace Landmark

/-! ## Calendar model (JavaScript Date semantics for MM/DD/YYYY values) -/

def isLeap (y : Nat) : Bool :=
  (y % 4 == 0 && y % 100 != 0) || y % 400 == 0

/-- Number of days of month `m` (1-12) in a year with leap flag `l`. -/
def monthDays (l : Bool) (m : Nat) : Nat :=
  match m with
  | 2 => if l then 29 else 28
  | 4 => 30
  | 6 => 30
  | 9 => 30
  | 11 => 30
  | _ => 31

/-- Cumulative days before month `m` within a year with leap flag `l`. -/
def daysBeforeMonth (l : Bool) (m : Nat) : Nat :=
  (match m with
   | 1 => 0 | 2 => 31 | 3 => 59 | 4 => 90 | 5 => 120 | 6 => 151
   | 7 => 181 | 8 => 212 | 9 => 243 | 10 => 273 | 11 => 304 | _ => 334)
  + (if l = true ∧ 3 ≤ m then 1 else 0)

/-- Days contributed by all years before year `y` (proleptic Gregorian). -/
def daysBeforeYear (y : Nat) : Nat :=
  365 * y + (y + 3) / 4 + (y + 399) / 400 - (y + 99) / 100

/-- A normalized calendar date (what a valid JS `Date` denotes at day
granularity). -/
structure Ymd where
  y : Nat
  m : Nat
  d : Nat
deriving DecidableEq, Repr

/-- Day numbering: strictly increasing along the calendar; models the
ordering of JS `Date` timestamps at day granularity. -/
def dayNum (x : Ymd) : Nat :=
  daysBeforeYear x.y + daysBeforeMonth (isLeap x.y) x.m + x.d

def validYmd (x : Ymd) : Prop :=
  1 ≤ x.m ∧ x.m ≤ 12 ∧ 1 ≤ x.d ∧ x.d ≤ monthDays (isLeap x.y) x.m

instance (x : Ymd) : Decidable (validYmd x) := by
  unfold validYmd; infer_instance

/-- `setDate(getDate() + 1)`: advance one calendar day with month/year
rollover (JS `Date` normalization). -/
def nextDay (x : Ymd) : Ymd :=
  if x.d < monthDays (isLeap x.y) x.m then ⟨x.y, x.m, x.d + 1⟩
  else if x.m < 12 then ⟨x.y, x.m + 1, 1⟩
  else ⟨x.y + 1, 1, 1⟩

/-- `setDate(getDate() - 1)`: step one calendar day backwards. -/
def prevDay (x : Ymd) : Ymd :=
  if 1 < x.d then ⟨x.y, x.m, x.d - 1⟩
  else if 1 < x.m then ⟨x.y, x.m - 1, monthDays (isLeap x.y) (x.m - 1)⟩
  else ⟨x.y - 1, 12, 31⟩

/-- Digits-only numeral parser used by the date-string parser. -/
def parseNatChars (cs : List Char) : Option Nat :=
  if !cs.isEmpty && cs.all (fun c => c.isDigit) then
    some (cs.foldl (fun a c => a * 10 + (c.toNat - 48)) 0)
  else none

/-- `new Date("MM/DD/YYYY")`: parse, rejecting impossible calendar
values (which yield an Invalid Date in the runtime). -/
def parseDate (s : String) : Option Ymd :=
  match s.data.splitOn '/' with
  | [ms, dcs, ys] =>
    match parseNatChars ms, parseNatChars dcs, parseNatChars ys with
    | some m, some d, some y =>
      if 1 ≤ m ∧ m ≤ 12 ∧ 1 ≤ d ∧ d ≤ monthDays (isLeap y) m then
        some ⟨y, m, d⟩
      else none
    | _, _, _ => none
  | _ => none

/-- `padStart(2, "0")`. -/
def pad2 (n : Nat) : String :=
  let s := toString n
  if s.length < 2 then "0" ++ s else s

/-- The formatting performed inside the date-range loop:
zero-padded month and day, unpadded year, slash separated. -/
def formatYmd (x : Ymd) : String :=
  pad2 x.m ++ "/" ++ pad2 x.d ++ "/" ++ toString x.y

/-- The body of `generateDateRange`: iterate from `d` while
`d <= e` (timestamp comparison), pushing the formatted day and
advancing by one day.  The fuel argument is the exact iteration count
and is supplied by the wrapper below. -/
def rangeGo : Nat → Ymd → Ymd → List String
  | 0, _, _ => []
  | fuel + 1, d, e =>
    if dayNum d ≤ dayNum e then formatYmd d :: rangeGo fuel (nextDay d) e
    else []

/-- `generateDateRange(startDate, endDate)` from the source: parse both
endpoints, then loop day by day while the running date does not pass
the end date. -/
def generateDateRange (startDate endDate : String) : List String :=
  match parseDate startDate, parseDate endDate with
  | some s, some e => rangeGo (dayNum e + 1 - dayNum s) s e
  | _, _ => []

/-! ## String helpers used for file naming -/

/-- JS regex `\s` character class (ASCII part). -/
def isWsChar (c : Char) : Bool :=
  c = ' ' || c = '\t' || c = '\n' || c = '\r' || c = '\x0b' || c = '\x0c'

/-- `replace(/\s+/g, "-")` on a character list: each maximal whitespace
run becomes a single hyphen.  The flag records whether the previous
character belonged to a whitespace run (only the first character of a
run emits the hyphen). -/
def collapseWsAux : Bool → List Char → List Char
  | _, [] => []
  | prevWs, c :: rest =>
    if isWsChar c then
      if prevWs then collapseWsAux true rest
      else '-' :: collapseWsAux true rest
    else c :: collapseWsAux false rest

def collapseWs (s : String) : String :=
  String.mk (collapseWsAux false s.data)

/-- `replace(/\//g, "-")`. -/
def replaceSlashes (s : String) : String :=
  String.mk (s.data.map (fun c => if c = '/' then '-' else c))

/-- The export file name built in `scrapeSingleDay`. -/
def fileNameFor (county documentType date : String) : String :=
  county ++ "-" ++ collapseWs documentType ++ "-" ++ replaceSlashes date ++ ".csv"

/-! ## S3 uploader (`lib/s3-upload.ts`) -/

/-- Ambient inputs of one `uploadFile` call: bucket name, the UTC date
partition and `Date.now()` timestamp taken at upload time, and the
outcome of the `send` transport call. -/
structure S3Env where
  bucketName : String
  dateFolder : String
  timestamp : String
  sendResult : Except String Unit

/-- `S3Uploader.uploadFile`: build the key, send, return the locator or
throw a wrapped error. -/
def uploadFile (env : S3Env) (fileName : String) : Except String String :=
  let key := "landmark-scraper/" ++ env.dateFolder ++ "/" ++ env.timestamp ++ "-" ++ fileName
  match env.sendResult with
  | Except.ok _ => Except.ok ("s3://" ++ env.bucketName ++ "/" ++ key)
  | Except.error m => Except.error ("Failed to upload to S3: " ++ m)

/-! ## Unit scraper (`scrapeSingleDay`) -/

/-- Oracle for the external interactions of one `scrapeSingleDay` call.
Each `Option String` is a potential exception thrown by the browser
primitives of that phase (`some msg` throws, `none` succeeds). -/
structure UnitEnv where
  navThrow : Option String
  noRecordsVisible : Bool
  exportVisible : Bool
  exportThrow : Option String
  s3 : S3Env
  goBackThrow : Option String

/-- Return type of `scrapeSingleDay`. -/
structure UnitRes where
  success : Bool
  s3Path : Option String
  error : Option String
deriving DecidableEq, Repr

/-- The `try` body of `scrapeSingleDay`: navigation and form filling,
the two empty-result checks, the export/download phase, the upload and
the final `goBack`.  An escaping exception is an `Except.error`. -/
def scrapeBody (u : UnitEnv) (date documentType county : String) : Except String UnitRes :=
  match u.navThrow with
  | some m => Except.error m
  | none =>
    if u.noRecordsVisible then Except.ok ⟨true, some "no-records", none⟩
    else if u.exportVisible = false then Except.ok ⟨true, some "no-records", none⟩
    else
      match u.exportThrow with
      | some m => Except.error m
      | none =>
        match uploadFile u.s3 (fileNameFor county documentType date) with
        | Except.error m => Except.error m
        | Except.ok s3Path =>
          match u.goBackThrow with
          | some m => Except.error m
          | none => Except.ok ⟨true, some s3Path, none⟩

/-- `scrapeSingleDay`: the body wrapped in the catch that converts any
exception into a failed outcome. -/
def scrapeSingleDay (u : UnitEnv) (date documentType county : String) : UnitRes :=
  match scrapeBody u date documentType county with
  | Except.ok r => r
  | Except.error m => ⟨false, none, some m⟩

/-! ## Orchestrator (`execute`) -/

structure ScrapeConfig where
  startDate : String
  endDate : String
  documentTypes : List String
  county : String

structure ResultEntry where
  date : String
  documentType : String
  s3Path : Option String
  error : Option String
deriving DecidableEq, Repr

structure Summary where
  total : Nat
  successful : Nat
  failed : Nat
deriving DecidableEq, Repr

structure ExecResult where
  success : Bool
  results : List ResultEntry
  summary : Summary
deriving DecidableEq, Repr

/-- Oracle for the external interactions of one `execute` call.  The
`units` and `delayResult` oracles are indexed by dispatch order: entry
`k` drives the `k`-th `scrapeSingleDay` call and the
`waitForTimeout(2000)` that follows it. -/
structure Env where
  initResult : Except String Unit
  gotoResult : Except String Unit
  units : Nat → UnitEnv
  delayResult : Nat → Option String
  closeResult : Except String Unit

/-- JS truthiness of an optional string field (`undefined` and the
empty string are falsy). -/
def truthyS : Option String → Bool
  | none => false
  | some s => !(s == "")

/-- `results.filter(r => r.s3Path && !r.error).length`. -/
def countSuccessful (l : List ResultEntry) : Nat :=
  (l.filter (fun r => truthyS r.s3Path && !(truthyS r.error))).length

/-- `results.filter(r => r.error).length`. -/
def countFailed (l : List ResultEntry) : Nat :=
  (l.filter (fun r => truthyS r.error)).length

/-- The value returned from the `catch` block of `execute`. -/
def catchResult (results : List ResultEntry) : ExecResult :=
  ⟨false, results, ⟨results.length, countSuccessful results, countFailed results + 1⟩⟩

/-- The ordered cross product of work units: outer loop over the
generated dates, inner loop over the configured document types. -/
def unitPairs (config : ScrapeConfig) : List (String × String) :=
  (generateDateRange config.startDate config.endDate).flatMap
    (fun d => config.documentTypes.map (fun t => (d, t)))

/-- The nested loops of `execute`: run each unit, append its entry,
then run the inter-unit delay, whose exception (if any) escapes. -/
def runLoop (units : Nat → UnitEnv) (delays : Nat → Option String) (county : String) :
    Nat → List (String × String) → List ResultEntry → List ResultEntry × Option String
  | _, [], acc => (acc, none)
  | k, (date, docType) :: rest, acc =>
    let r := scrapeSingleDay (units k) date docType county
    let acc2 := acc ++ [⟨date, docType, r.s3Path, r.error⟩]
    match delays k with
    | some m => (acc2, some m)
    | none => runLoop units delays county (k + 1) rest acc2

/-- `execute`, instrumented with the number of `stagehand.close()`
attempts.  Control flow mirrors the source: init, initial navigation,
the unit loop, the in-try close, and the catch block (which itself
attempts a close whose own failure is swallowed). -/
def executeRun (env : Env) (config : ScrapeConfig) : ExecResult × Nat :=
  match env.initResult with
  | Except.error _ => (catchResult [], 1)
  | Except.ok _ =>
    match env.gotoResult with
    | Except.error _ => (catchResult [], 1)
    | Except.ok _ =>
      match runLoop env.units env.delayResult config.county 0 (unitPairs config) [] with
      | (results, some _) => (catchResult results, 1)
      | (results, none) =>
        match env.closeResult with
        | Except.ok _ =>
          (⟨true, results, ⟨results.length, countSuccessful results, countFailed results⟩⟩, 1)
        | Except.error _ => (catchResult results, 2)

/-- The result value of `execute` as returned to the caller. -/
def execute (env : Env) (config : ScrapeConfig) : ExecResult :=
  (executeRun env config).1

/-! ## Request handler (date-range derivation) -/

/-- The date-range computation of the HTTP handler: the explicit range
is used only when both `startDate` and `endDate` are present (and
truthy); otherwise the range is `daysBack` days (default 30, `0` being
falsy) ending today. -/
def computeDateRange (startDate endDate : Option String) (daysBack : Option Nat)
    (today : Ymd) : String × String :=
  if truthyS startDate && truthyS endDate then
    (startDate.getD "", endDate.getD "")
  else
    let db := match daysBack with
      | some n => if n = 0 then 30 else n
      | none => 30
    (formatYmd (prevDay^[db] today), formatYmd today)

/-! ## Derived descriptions used by the theorems -/

/-- The result entry pushed by the loop for one unit. -/
def entryFor (u : UnitEnv) (date docType county : String) : ResultEntry :=
  ⟨date, docType, (scrapeSingleDay u date docType county).s3Path,
   (scrapeSingleDay u date docType county).error⟩

/-- The entries produced by the loop for a unit list starting at
dispatch index `k`. -/
def buildEntries (units : Nat → UnitEnv) (county : String) :
    Nat → List (String × String) → List ResultEntry
  | _, [] => []
  | k, (d, t) :: rest => entryFor (units k) d t county :: buildEntries units county (k + 1) rest

/-- Shape invariant of a unit result: an archived or no-records outcome
carries a non-empty locator and no error; a failed outcome carries an
error message and no locator. -/
def wfRes (r : UnitRes) : Prop :=
  (∃ p, r.s3Path = some p ∧ p ≠ "" ∧ r.error = none) ∨
  (r.s3Path = none ∧ ∃ m, r.error = some m)

/-- The same shape invariant on a pushed result entry. -/
def wfEntry (r : ResultEntry) : Prop :=
  (∃ p, r.s3Path = some p ∧ p ≠ "" ∧ r.error = none) ∨
  (r.s3Path = none ∧ ∃ m, r.error = some m)

/-- No recorded error message is the empty string (the one message the
summary filters miscount, since the empty string is falsy). -/
def errorsNonempty (l : List ResultEntry) : Prop :=
  ∀ r ∈ l, r.error ≠ some ""

instance (l : List ResultEntry) : Decidable (errorsNonempty l) := by
  unfold errorsNonempty; infer_instance

/-! ## Concrete inputs used by witnesses and counterexamples -/

/-- A unit oracle whose search finds no records and throws nowhere. -/
def unitEnvNoRecords : UnitEnv :=
  ⟨none, true, false, none, ⟨"bucket", "2024-06-01", "1717200000000", Except.ok ()⟩, none⟩

/-- A unit oracle that reaches the export path and archives. -/
def unitEnvArchive : UnitEnv :=
  ⟨none, false, true, none, ⟨"bucket", "2024-06-01", "1717200000000", Except.ok ()⟩, none⟩

/-- A unit oracle whose navigation phase throws an empty message. -/
def unitEnvEmptyThrow : UnitEnv :=
  ⟨some "", true, false, none, ⟨"bucket", "2024-06-01", "1717200000000", Except.ok ()⟩, none⟩

/-- A two-day, one-type configuration. -/
def cfgTwoDays : ScrapeConfig := ⟨"01/01/2024", "01/02/2024", ["DEED"], "king"⟩

/-- A one-day, one-type configuration. -/
def cfgOneDay : ScrapeConfig := ⟨"01/01/2024", "01/01/2024", ["DEED"], "king"⟩

/-- A configuration whose start date falls strictly after its end date. -/
def cfgInverted : ScrapeConfig := ⟨"01/02/2024", "01/01/2024", ["DEED"], "king"⟩

/-- Environment whose session open fails. -/
def envInitFail : Env :=
  ⟨Except.error "init failed", Except.ok (), fun _ => unitEnvNoRecords, fun _ => none, Except.ok ()⟩

/-- Environment that completes normally with no-records units. -/
def envClean : Env :=
  ⟨Except.ok (), Except.ok (), fun _ => unitEnvNoRecords, fun _ => none, Except.ok ()⟩

/-- Environment whose first unit fails with an empty message and whose
first inter-unit delay throws. -/
def envEmptyMsgEscape : Env :=
  ⟨Except.ok (), Except.ok (), fun _ => unitEnvEmptyThrow,
   fun i => if i = 0 then some "boom" else none, Except.ok ()⟩

/-- Environment that completes the loop normally and whose first unit
succeeds, but whose first delay throws. -/
def envDelayEscape : Env :=
  ⟨Except.ok (), Except.ok (), fun _ => unitEnvNoRecords,
   fun i => if i = 0 then some "boom" else none, Except.ok ()⟩

/-- Environment whose initial navigation fails. -/
def envGotoFail : Env :=
  ⟨Except.ok (), Except.error "nav failed", fun _ => unitEnvNoRecords, fun _ => none, Except.ok ()⟩

/-- Environment whose in-try close fails after a normal run. -/
def envCloseFail : Env :=
  ⟨Except.ok (), Except.ok (), fun _ => unitEnvNoRecords, fun _ => none, Except.error "close failed"⟩

/-! ## Calendar lemmas -/

theorem isLeap_iff (y : Nat) :
    isLeap y = true ↔ (y % 4 = 0 ∧ y % 100 ≠ 0) ∨ y % 400 = 0 := by
  unfold isLeap
  simp

theorem dayNum_mk (y m d : Nat) :
    dayNum ⟨y, m, d⟩ = daysBeforeYear y + daysBeforeMonth (isLeap y) m + d := rfl

theorem validYmd_mk (y m d : Nat) :
    validYmd ⟨y, m, d⟩ ↔ 1 ≤ m ∧ m ≤ 12 ∧ 1 ≤ d ∧ d ≤ monthDays (isLeap y) m := Iff.rfl

theorem nextDay_mk (y m d : Nat) :
    nextDay ⟨y, m, d⟩ =
      if d < monthDays (isLeap y) m then ⟨y, m, d + 1⟩
      else if m < 12 then ⟨y, m + 1, 1⟩
      else ⟨y + 1, 1, 1⟩ := rfl

set_option maxHeartbeats 1000000 in
theorem daysBeforeYear_succ (y : Nat) :
    daysBeforeYear (y + 1) = daysBeforeYear y + (if isLeap y then 366 else 365) := by
  by_cases h : isLeap y = true
  · rw [if_pos h]
    have h2 := (isLeap_iff y).mp h
    unfold daysBeforeYear
    omega
  · rw [if_neg h]
    have h2 : ¬((y % 4 = 0 ∧ y % 100 ≠ 0) ∨ y % 400 = 0) := fun hh => h ((isLeap_iff y).mpr hh)
    unfold daysBeforeYear
    omega

theorem daysBeforeYear_mono {a b : Nat} (h : a ≤ b) :
    daysBeforeYear a ≤ daysBeforeYear b := by
  induction b with
  | zero =>
    have ha : a = 0 := by omega
    subst ha
    exact le_refl _
  | succ n ih =>
    rcases Nat.lt_or_ge a (n + 1) with h2 | h2
    · have hle := ih (by omega)
      have hs := daysBeforeYear_succ n
      split at hs <;> omega
    · have ha : a = n + 1 := by omega
      subst ha
      exact le_refl _

theorem monthDays_pos (l : Bool) (m : Nat) : 0 < monthDays l m := by
  unfold monthDays
  split
  · split <;> omega
  all_goals omega

theorem daysBeforeMonth_step (l : Bool) (m : Nat) (h1 : 1 ≤ m) (h2 : m < 12) :
    daysBeforeMonth l (m + 1) = daysBeforeMonth l m + monthDays l m := by
  interval_cases m <;> cases l <;> decide

theorem dayNum_nextDay (x : Ymd) (h : validYmd x) : dayNum (nextDay x) = dayNum x + 1 := by
  obtain ⟨y, m, d⟩ := x
  rw [validYmd_mk] at h
  obtain ⟨h1, h2, h3, h4⟩ := h
  rw [nextDay_mk]
  by_cases hd : d < monthDays (isLeap y) m
  · rw [if_pos hd, dayNum_mk, dayNum_mk]
    omega
  · rw [if_neg hd]
    have hdm : d = monthDays (isLeap y) m := le_antisymm h4 (Nat.le_of_not_lt hd)
    by_cases hm : m < 12
    · rw [if_pos hm, dayNum_mk, dayNum_mk]
      have hstep := daysBeforeMonth_step (isLeap y) m h1 hm
      omega
    · rw [if_neg hm, dayNum_mk, dayNum_mk]
      have hm12 : m = 12 := by omega
      have hmd : monthDays (isLeap y) 12 = 31 := rfl
      have hd31 : d = 31 := by rw [hdm, hm12, hmd]
      have hsucc := daysBeforeYear_succ y
      have hb1 : ∀ l : Bool, daysBeforeMonth l 1 = 0 := by intro l; cases l <;> rfl
      have hb12 : ∀ l : Bool, daysBeforeMonth l 12 = 334 + (if l then 1 else 0) := by
        intro l; cases l <;> rfl
      rw [hm12, hb1, hb12, hd31]
      rcases Bool.eq_false_or_eq_true (isLeap y) with hl | hl <;>
        rw [hl] at hsucc ⊢ <;> simp at hsucc ⊢ <;> omega

theorem valid_nextDay (x : Ymd) (h : validYmd x) : validYmd (nextDay x) := by
  obtain ⟨y, m, d⟩ := x
  rw [validYmd_mk] at h
  obtain ⟨h1, h2, h3, h4⟩ := h
  rw [nextDay_mk]
  by_cases hd : d < monthDays (isLeap y) m
  · rw [if_pos hd, validYmd_mk]
    exact ⟨h1, h2, by omega, by omega⟩
  · rw [if_neg hd]
    by_cases hm : m < 12
    · rw [if_pos hm, validYmd_mk]
      exact ⟨by omega, by omega, le_refl 1, monthDays_pos _ _⟩
    · rw [if_neg hm, validYmd_mk]
      refine ⟨by omega, by omega, le_refl 1, ?_⟩
      have : monthDays (isLeap (y + 1)) 1 = 31 := rfl
      omega

theorem valid_iterate (x : Ymd) (h : validYmd x) (i : Nat) : validYmd (nextDay^[i] x) := by
  induction i with
  | zero => simpa using h
  | succ n ih =>
    rw [Function.iterate_succ_apply']
    exact valid_nextDay _ ih

theorem dayNum_iterate (x : Ymd) (h : validYmd x) (i : Nat) :
    dayNum (nextDay^[i] x) = dayNum x + i := by
  induction i with
  | zero => simp
  | succ n ih =>
    rw [Function.iterate_succ_apply', dayNum_nextDay _ (valid_iterate x h n), ih]
    omega

theorem offset_bounds (l : Bool) (m d : Nat) (h1 : 1 ≤ m) (h2 : m ≤ 12) (h3 : 1 ≤ d)
    (h4 : d ≤ monthDays l m) :
    1 ≤ daysBeforeMonth l m + d ∧ daysBeforeMonth l m + d ≤ (if l then 366 else 365) := by
  interval_cases m <;> cases l <;> simp [daysBeforeMonth, monthDays] at h4 ⊢ <;> omega

theorem offset_lt_of_month_lt (l : Bool) (m1 d1 m2 d2 : Nat) (h : m1 < m2)
    (hm1 : 1 ≤ m1) (hm2 : m2 ≤ 12) (hd1 : 1 ≤ d1) (hd4 : d1 ≤ monthDays l m1)
    (hd3 : 1 ≤ d2) :
    daysBeforeMonth l m1 + d1 < daysBeforeMonth l m2 + d2 := by
  have hm1b : m1 < 12 := by omega
  have hm2b : 2 ≤ m2 := by omega
  interval_cases m1 <;> interval_cases m2 <;> cases l <;>
    simp [daysBeforeMonth, monthDays] at hd4 ⊢ <;> omega

theorem dayNum_lt_of_year_lt (x z : Ymd) (hx : validYmd x) (hz : validYmd z)
    (h : x.y < z.y) : dayNum x < dayNum z := by
  obtain ⟨hx1, hx2, hx3, hx4⟩ := hx
  obtain ⟨hz1, hz2, hz3, hz4⟩ := hz
  have hbx := offset_bounds (isLeap x.y) x.m x.d hx1 hx2 hx3 hx4
  have hbz := offset_bounds (isLeap z.y) z.m z.d hz1 hz2 hz3 hz4
  have hsucc := daysBeforeYear_succ x.y
  have hmono : daysBeforeYear (x.y + 1) ≤ daysBeforeYear z.y := daysBeforeYear_mono h
  unfold dayNum
  split at hbx <;> split at hsucc <;> omega

theorem dayNum_inj (x z : Ymd) (hx : validYmd x) (hz : validYmd z)
    (h : dayNum x = dayNum z) : x = z := by
  rcases Nat.lt_trichotomy x.y z.y with hy | hy | hy
  · exact absurd h (Nat.ne_of_lt (dayNum_lt_of_year_lt x z hx hz hy))
  · obtain ⟨hx1, hx2, hx3, hx4⟩ := hx
    obtain ⟨hz1, hz2, hz3, hz4⟩ := hz
    have ey : daysBeforeYear x.y = daysBeforeYear z.y := by rw [hy]
    have el : isLeap x.y = isLeap z.y := by rw [hy]
    unfold dayNum at h
    rw [← ey, ← el] at h
    rcases Nat.lt_trichotomy x.m z.m with hm | hm | hm
    · have := offset_lt_of_month_lt (isLeap x.y) x.m x.d z.m z.d hm hx1 hz2 hx3 hx4 hz3
      omega
    · have hd : x.d = z.d := by rw [hm] at h; omega
      cases x; cases z
      simp_all
    · have := offset_lt_of_month_lt (isLeap x.y) z.m z.d x.m x.d hm hz1 hx2 hz3
        (by rw [el]; exact hz4) hx3
      omega
  · exact absurd h (Nat.ne_of_gt (dayNum_lt_of_year_lt z x hz hx hy))

theorem parseDate_valid {s : String} {x : Ymd} (h : parseDate s = some x) : validYmd x := by
  unfold parseDate at h
  split at h
  · split at h
    · split at h
      · injection h with h
        subst h
        assumption
      · exact absurd h (by simp)
    all_goals exact absurd h (by simp)
  · exact absurd h (by simp)

theorem rangeGo_spec (e : Ymd) :
    ∀ (fuel : Nat) (d : Ymd), validYmd d → dayNum d + fuel = dayNum e + 1 →
      rangeGo fuel d e = (List.range fuel).map (fun i => formatYmd (nextDay^[i] d)) := by
  intro fuel
  induction fuel with
  | zero => intro d _ _; rfl
  | succ n ih =>
    intro d hv hsum
    have hle : dayNum d ≤ dayNum e := by omega
    unfold rangeGo
    simp only [hle, if_true]
    rw [List.range_succ_eq_map]
    rw [ih (nextDay d) (valid_nextDay d hv) (by have := dayNum_nextDay d hv; omega)]
    simp [List.map_map, Function.comp, Function.iterate_succ_apply]

/-! ## Unit-result and loop lemmas -/

theorem s3_locator_ne_empty (b k : String) : "s3://" ++ b ++ "/" ++ k ≠ "" := by
  intro h
  have hlen := congrArg String.length h
  rw [String.length_append, String.length_append, String.length_append] at hlen
  have h5 : "s3://".length = 5 := rfl
  have h0 : "".length = 0 := rfl
  omega

theorem scrapeSingleDay_wf (u : UnitEnv) (d t c : String) : wfRes (scrapeSingleDay u d t c) := by
  obtain ⟨nav, nr, ev, et, ⟨bn, df, ts, send⟩, gb⟩ := u
  rcases nav with _ | m
  · rcases nr
    · rcases ev
      · exact Or.inl ⟨"no-records", rfl, by decide, rfl⟩
      · rcases et with _ | m
        · rcases send with m | u0
          · exact Or.inr ⟨rfl, _, rfl⟩
          · rcases gb with _ | m
            · exact Or.inl ⟨_, rfl, s3_locator_ne_empty bn _, rfl⟩
            · exact Or.inr ⟨rfl, m, rfl⟩
        · exact Or.inr ⟨rfl, m, rfl⟩
    · exact Or.inl ⟨"no-records", rfl, by decide, rfl⟩
  · exact Or.inr ⟨rfl, m, rfl⟩

theorem entryFor_wf (u : UnitEnv) (d t c : String) : wfEntry (entryFor u d t c) :=
  scrapeSingleDay_wf u d t c

theorem runLoop_clean (units : Nat → UnitEnv) (delays : Nat → Option String) (county : String)
    (hd : ∀ i, delays i = none) :
    ∀ (pairs : List (String × String)) (k : Nat) (acc : List ResultEntry),
      runLoop units delays county k pairs acc = (acc ++ buildEntries units county k pairs, none) := by
  intro pairs
  induction pairs with
  | nil => intro k acc; simp [runLoop, buildEntries]
  | cons p rest ih =>
    intro k acc
    obtain ⟨d, t⟩ := p
    unfold runLoop
    rw [hd k]
    dsimp only
    rw [ih (k + 1)]
    simp [buildEntries, entryFor]

theorem runLoop_escape (units : Nat → UnitEnv) (delays : Nat → Option String) (county : String) :
    ∀ (pairs : List (String × String)) (k K : Nat) (m : String) (acc : List ResultEntry),
      (∀ i, i < K → delays (k + i) = none) → delays (k + K) = some m → K < pairs.length →
      runLoop units delays county k pairs acc =
        (acc ++ buildEntries units county k (pairs.take (K + 1)), some m) := by
  intro pairs
  induction pairs with
  | nil =>
    intro k K m acc _ _ hlen
    simp at hlen
  | cons p rest ih =>
    intro k K m acc hclean hK hlen
    obtain ⟨d, t⟩ := p
    rcases Nat.eq_zero_or_pos K with hK0 | hKpos
    · subst hK0
      unfold runLoop
      rw [show k + 0 = k by rfl] at hK
      rw [hK]
      simp [buildEntries, entryFor]
    · obtain ⟨K2, rfl⟩ : ∃ K2, K = K2 + 1 := ⟨K - 1, by omega⟩
      unfold runLoop
      have h0 : delays k = none := by
        have := hclean 0 (by omega)
        simpa using this
      rw [h0]
      dsimp only
      rw [ih (k + 1) K2 m _
        (fun i hi => by
          have := hclean (i + 1) (by omega)
          rw [show k + (i + 1) = k + 1 + i by omega] at this
          exact this)
        (by rw [show k + 1 + K2 = k + (K2 + 1) by omega]; exact hK)
        (by simp at hlen; omega)]
      simp [buildEntries, entryFor]

theorem runLoop_wf (units : Nat → UnitEnv) (delays : Nat → Option String) (county : String) :
    ∀ (pairs : List (String × String)) (k : Nat) (acc : List ResultEntry),
      (∀ r ∈ acc, wfEntry r) →
      ∀ r ∈ (runLoop units delays county k pairs acc).1, wfEntry r := by
  intro pairs
  induction pairs with
  | nil =>
    intro k acc hacc r hr
    exact hacc r hr
  | cons p rest ih =>
    intro k acc hacc r hr
    obtain ⟨d, t⟩ := p
    have hacc2 : ∀ x ∈ acc ++ [entryFor (units k) d t county], wfEntry x := by
      intro x hx
      rcases List.mem_append.mp hx with hx | hx
      · exact hacc x hx
      · rw [List.mem_singleton.mp hx]
        exact entryFor_wf (units k) d t county
    unfold runLoop at hr
    rcases hdel : delays k with _ | m <;> rw [hdel] at hr
    · exact ih (k + 1) _ hacc2 r hr
    · exact hacc2 r hr

theorem count_partition :
    ∀ l : List ResultEntry, (∀ r ∈ l, wfEntry r) → errorsNonempty l →
      countSuccessful l + countFailed l = l.length := by
  intro l
  induction l with
  | nil => intro _ _; rfl
  | cons r rest ih =>
    intro hwf hne
    have hr := hwf r (List.mem_cons_self r rest)
    have hrne := hne r (List.mem_cons_self r rest)
    have ihh := ih (fun x hx => hwf x (List.mem_cons_of_mem r hx))
      (fun x hx => hne x (List.mem_cons_of_mem r hx))
    unfold countSuccessful countFailed at ihh ⊢
    rw [List.filter_cons, List.filter_cons]
    rcases hr with ⟨p, hp, hpne, herr⟩ | ⟨hpath, m, herr⟩
    · have h1 : truthyS r.s3Path = true := by rw [hp]; simp [truthyS, hpne]
      have h2 : truthyS r.error = false := by rw [herr]; rfl
      simp [h1, h2]
      omega
    · have hmne : m ≠ "" := by
        intro hm
        exact hrne (by rw [herr, hm])
      have h1 : truthyS r.s3Path = false := by rw [hpath]; rfl
      have h2 : truthyS r.error = true := by rw [herr]; simp [truthyS, hmne]
      simp [h1, h2]
      omega

theorem buildEntries_pairs (units : Nat → UnitEnv) (county : String) :
    ∀ (pairs : List (String × String)) (k : Nat),
      (buildEntries units county k pairs).map (fun e => (e.date, e.documentType)) = pairs := by
  intro pairs
  induction pairs with
  | nil => intro k; rfl
  | cons p rest ih =>
    intro k
    obtain ⟨d, t⟩ := p
    simp [buildEntries, entryFor, ih (k + 1)]

theorem buildEntries_length (units : Nat → UnitEnv) (county : String) :
    ∀ (pairs : List (String × String)) (k : Nat),
      (buildEntries units county k pairs).length = pairs.length := by
  intro pairs
  induction pairs with
  | nil => intro k; rfl
  | cons p rest ih =>
    intro k
    obtain ⟨d, t⟩ := p
    simp [buildEntries, ih (k + 1)]

theorem flatMap_pairs_length (dates : List String) (ts : List String) :
    (dates.flatMap (fun d => ts.map (fun t => (d, t)))).length = dates.length * ts.length := by
  induction dates with
  | nil => simp
  | cons d rest ih =>
    simp [List.flatMap_cons, ih]
    ring

/-! ## Claim theorems -/

/-- C7: generateDateRange enumerates every calendar day from the start
date to the end date inclusive on both ends, each formatted as
zero-padded MM/DD/YYYY; the element at index i is the i-th calendar
successor of the start day, the end day itself is reached exactly at
the last index, and the concrete range 01/01/2024 to 01/03/2024 yields
exactly the three dates 01/01/2024, 01/02/2024, 01/03/2024. -/
theorem generateDateRange_enumerates (s e : String) (ds de : Ymd)
    (hs : parseDate s = some ds) (he : parseDate e = some de)
    (hle : dayNum ds ≤ dayNum de) :
    generateDateRange s e =
      (List.range (dayNum de + 1 - dayNum ds)).map (fun i => formatYmd (nextDay^[i] ds)) ∧
    nextDay^[dayNum de - dayNum ds] ds = de ∧
    generateDateRange "01/01/2024" "01/03/2024" = ["01/01/2024", "01/02/2024", "01/03/2024"] := by
  have hvs := parseDate_valid hs
  refine ⟨?_, ?_, by decide⟩
  · unfold generateDateRange
    rw [hs, he]
    exact rangeGo_spec de _ ds hvs (by omega)
  · apply dayNum_inj _ _ (valid_iterate ds hvs _) (parseDate_valid he)
    rw [dayNum_iterate ds hvs]
    omega

/-- C7 witness: the theorem instantiated at the concrete range
01/01/2024 to 01/03/2024, with all hypotheses discharged by
evaluation. -/
theorem generateDateRange_enumerates_witness :
    parseDate "01/01/2024" = some ⟨2024, 1, 1⟩ ∧
    parseDate "01/03/2024" = some ⟨2024, 1, 3⟩ ∧
    dayNum ⟨2024, 1, 1⟩ ≤ dayNum ⟨2024, 1, 3⟩ ∧
    (generateDateRange "01/01/2024" "01/03/2024" =
      (List.range (dayNum (⟨2024, 1, 3⟩ : Ymd) + 1 - dayNum (⟨2024, 1, 1⟩ : Ymd))).map
        (fun i => formatYmd (nextDay^[i] ⟨2024, 1, 1⟩)) ∧
     nextDay^[dayNum (⟨2024, 1, 3⟩ : Ymd) - dayNum (⟨2024, 1, 1⟩ : Ymd)] ⟨2024, 1, 1⟩ =
       (⟨2024, 1, 3⟩ : Ymd) ∧
     generateDateRange "01/01/2024" "01/03/2024" = ["01/01/2024", "01/02/2024", "01/03/2024"]) :=
  ⟨by decide, by decide, by decide,
   generateDateRange_enumerates "01/01/2024" "01/03/2024" ⟨2024, 1, 1⟩ ⟨2024, 1, 3⟩
     (by decide) (by decide) (by decide)⟩

/-- C5: every exception raised inside the body of scrapeSingleDay is
caught there and converted into a returned outcome with success false
and the thrown message as the error; otherwise the body result is
returned unchanged.  In particular scrapeSingleDay always returns a
completed outcome and never propagates an exception. -/
theorem scrapeSingleDay_never_propagates (u : UnitEnv) (d t c : String) :
    (∃ m, scrapeBody u d t c = Except.error m ∧
      scrapeSingleDay u d t c = ⟨false, none, some m⟩) ∨
    (∃ r, scrapeBody u d t c = Except.ok r ∧ scrapeSingleDay u d t c = r) := by
  rcases hb : scrapeBody u d t c with m | r
  · exact Or.inl ⟨m, rfl, by unfold scrapeSingleDay; rw [hb]⟩
  · exact Or.inr ⟨r, rfl, by unfold scrapeSingleDay; rw [hb]⟩

/-- C8: for every archived unit the uploaded file is named
county-documentType-date.csv where whitespace runs in the document
type and slashes in the date become hyphens, and for county king,
document type QUITCLAIM DEED and date 03/05/2024 the name is exactly
king-QUITCLAIM-DEED-03-05-2024.csv. -/
theorem exported_file_name (u : UnitEnv) (date documentType county : String)
    (hnav : u.navThrow = none) (hnr : u.noRecordsVisible = false)
    (hev : u.exportVisible = true) (het : u.exportThrow = none)
    (hsend : u.s3.sendResult = Except.ok ()) (hgb : u.goBackThrow = none) :
    scrapeSingleDay u date documentType county =
      ⟨true,
       some ("s3://" ++ u.s3.bucketName ++ "/" ++
         ("landmark-scraper/" ++ u.s3.dateFolder ++ "/" ++ u.s3.timestamp ++ "-" ++
          fileNameFor county documentType date)),
       none⟩ ∧
    fileNameFor county documentType date =
      county ++ "-" ++ collapseWs documentType ++ "-" ++ replaceSlashes date ++ ".csv" ∧
    fileNameFor "king" "QUITCLAIM DEED" "03/05/2024" = "king-QUITCLAIM-DEED-03-05-2024.csv" := by
  refine ⟨?_, rfl, by decide⟩
  unfold scrapeSingleDay scrapeBody uploadFile
  rw [hnav, hnr, hev, het, hsend, hgb]
  rfl

/-- C8 witness: the theorem instantiated at an archiving unit oracle
and the concrete unit of the claim. -/
theorem exported_file_name_witness :
    unitEnvArchive.navThrow = none ∧ unitEnvArchive.noRecordsVisible = false ∧
    unitEnvArchive.exportVisible = true ∧ unitEnvArchive.exportThrow = none ∧
    unitEnvArchive.s3.sendResult = Except.ok () ∧ unitEnvArchive.goBackThrow = none ∧
    (scrapeSingleDay unitEnvArchive "03/05/2024" "QUITCLAIM DEED" "king" =
      ⟨true,
       some ("s3://" ++ unitEnvArchive.s3.bucketName ++ "/" ++
         ("landmark-scraper/" ++ unitEnvArchive.s3.dateFolder ++ "/" ++
          unitEnvArchive.s3.timestamp ++ "-" ++
          fileNameFor "king" "QUITCLAIM DEED" "03/05/2024")),
       none⟩ ∧
     fileNameFor "king" "QUITCLAIM DEED" "03/05/2024" =
       "king" ++ "-" ++ collapseWs "QUITCLAIM DEED" ++ "-" ++ replaceSlashes "03/05/2024" ++ ".csv" ∧
     fileNameFor "king" "QUITCLAIM DEED" "03/05/2024" = "king-QUITCLAIM-DEED-03-05-2024.csv") :=
  ⟨rfl, rfl, rfl, rfl, rfl, rfl,
   exported_file_name unitEnvArchive "03/05/2024" "QUITCLAIM DEED" "king" rfl rfl rfl rfl rfl rfl⟩

/-- C4: if opening the session fails, execute returns success false,
no results, and summary total 0, successful 0, failed 1, regardless of
how many units the configuration would have produced. -/
theorem execute_init_failure (env : Env) (cfg : ScrapeConfig) (m : String)
    (hinit : env.initResult = Except.error m) :
    (execute env cfg).success = false ∧ (execute env cfg).results = [] ∧
    (execute env cfg).summary = ⟨0, 0, 1⟩ := by
  have hE : execute env cfg = catchResult [] := by
    unfold execute executeRun
    rw [hinit]
  rw [hE]
  exact ⟨rfl, rfl, rfl⟩

/-- C4 witness: the theorem instantiated at an environment whose init
fails and a one-unit configuration. -/
theorem execute_init_failure_witness :
    envInitFail.initResult = Except.error "init failed" ∧
    ((execute envInitFail cfgOneDay).success = false ∧
     (execute envInitFail cfgOneDay).results = [] ∧
     (execute envInitFail cfgOneDay).summary = ⟨0, 0, 1⟩) :=
  ⟨rfl, execute_init_failure envInitFail cfgOneDay "init failed" rfl⟩

/-- C2: when the session opens, navigation succeeds and the run
completes normally, execute returns exactly one result per pair of the
ordered cross product of the generated dates (outer loop) and the
supplied document types (inner loop), each entry carrying the date and
document type of its unit, so the result count is the product of the
two lengths. -/
theorem execute_cross_product (env : Env) (cfg : ScrapeConfig)
    (hinit : env.initResult = Except.ok ()) (hgoto : env.gotoResult = Except.ok ())
    (hdelay : ∀ i, env.delayResult i = none) (hclose : env.closeResult = Except.ok ()) :
    (execute env cfg).success = true ∧
    (execute env cfg).results.map (fun e => (e.date, e.documentType)) =
      (generateDateRange cfg.startDate cfg.endDate).flatMap
        (fun d => cfg.documentTypes.map (fun t => (d, t))) ∧
    (execute env cfg).results.length =
      (generateDateRange cfg.startDate cfg.endDate).length * cfg.documentTypes.length := by
  have hloop := runLoop_clean env.units env.delayResult cfg.county hdelay (unitPairs cfg) 0 []
  have hE : execute env cfg =
      ⟨true, buildEntries env.units cfg.county 0 (unitPairs cfg),
       ⟨(buildEntries env.units cfg.county 0 (unitPairs cfg)).length,
        countSuccessful (buildEntries env.units cfg.county 0 (unitPairs cfg)),
        countFailed (buildEntries env.units cfg.county 0 (unitPairs cfg))⟩⟩ := by
    unfold execute executeRun
    rw [hinit, hgoto]
    dsimp only
    rw [hloop]
    dsimp only
    rw [hclose]
    rfl
  rw [hE]
  refine ⟨rfl, ?_, ?_⟩
  · exact buildEntries_pairs env.units cfg.county (unitPairs cfg) 0
  · rw [buildEntries_length env.units cfg.county (unitPairs cfg) 0]
    exact flatMap_pairs_length _ _

/-- C2 witness: the theorem instantiated at a clean environment and a
two-day one-type configuration. -/
theorem execute_cross_product_witness :
    (∀ i, envClean.delayResult i = none) ∧
    ((execute envClean cfgTwoDays).success = true ∧
     (execute envClean cfgTwoDays).results.map (fun e => (e.date, e.documentType)) =
       (generateDateRange cfgTwoDays.startDate cfgTwoDays.endDate).flatMap
         (fun d => cfgTwoDays.documentTypes.map (fun t => (d, t))) ∧
     (execute envClean cfgTwoDays).results.length =
       (generateDateRange cfgTwoDays.startDate cfgTwoDays.endDate).length *
         cfgTwoDays.documentTypes.length) :=
  ⟨fun _ => rfl, execute_cross_product envClean cfgTwoDays rfl rfl (fun _ => rfl) rfl⟩

/-- C1 counterexample: when init fails the summary is total 0,
successful 0, failed 1, so successful plus failed differs from total
on this error path, refuting the claim that the equation holds on
every path. -/
theorem summary_partition_cex :
    (execute envInitFail cfgOneDay).summary.successful +
      (execute envInitFail cfgOneDay).summary.failed ≠
      (execute envInitFail cfgOneDay).summary.total := by
  decide

/-- C1 (amended): whenever every recorded error message is non-empty,
the summary satisfies successful plus failed equals total on the
normal-completion path, and successful plus failed equals total plus
one on every error path (the synthetic extra failure). -/
theorem summary_partition (env : Env) (cfg : ScrapeConfig)
    (hne : errorsNonempty (execute env cfg).results) :
    ((execute env cfg).success = true →
      (execute env cfg).summary.successful + (execute env cfg).summary.failed =
        (execute env cfg).summary.total) ∧
    ((execute env cfg).success = false →
      (execute env cfg).summary.successful + (execute env cfg).summary.failed =
        (execute env cfg).summary.total + 1) := by
  rcases hi : env.initResult with m | u
  · have hE : execute env cfg = catchResult [] := by
      unfold execute executeRun
      rw [hi]
    rw [hE]
    constructor
    · intro h
      simp [catchResult] at h
    · intro _
      rfl
  · rcases hg : env.gotoResult with m | u2
    · have hE : execute env cfg = catchResult [] := by
        unfold execute executeRun
        rw [hi, hg]
      rw [hE]
      constructor
      · intro h
        simp [catchResult] at h
      · intro _
        rfl
    · rcases hloop : runLoop env.units env.delayResult cfg.county 0 (unitPairs cfg) [] with
        ⟨results, esc⟩
      have hwf : ∀ r ∈ results, wfEntry r := by
        have hall := runLoop_wf env.units env.delayResult cfg.county (unitPairs cfg) 0 []
          (fun r hr => absurd hr (List.not_mem_nil r))
        rw [hloop] at hall
        exact hall
      rcases esc with _ | m
      · rcases hc : env.closeResult with m | u3
        · have hE : execute env cfg = catchResult results := by
            unfold execute executeRun
            rw [hi, hg]
            dsimp only
            rw [hloop]
            dsimp only
            rw [hc]
          rw [hE] at hne ⊢
          have hpart := count_partition results hwf hne
          constructor
          · intro h
            simp [catchResult] at h
          · intro _
            show countSuccessful results + (countFailed results + 1) = results.length + 1
            omega
        · have hE : execute env cfg =
              ⟨true, results, ⟨results.length, countSuccessful results, countFailed results⟩⟩ := by
            unfold execute executeRun
            rw [hi, hg]
            dsimp only
            rw [hloop]
            dsimp only
            rw [hc]
          rw [hE] at hne ⊢
          have hpart := count_partition results hwf hne
          constructor
          · intro _
            exact hpart
          · intro h
            simp at h
      · have hE : execute env cfg = catchResult results := by
          unfold execute executeRun
          rw [hi, hg]
          dsimp only
          rw [hloop]
        rw [hE] at hne ⊢
        have hpart := count_partition results hwf hne
        constructor
        · intro h
          simp [catchResult] at h
        · intro _
          show countSuccessful results + (countFailed results + 1) = results.length + 1
          omega

/-- C1 witness: the amended theorem instantiated at a clean
environment, whose hypothesis holds by evaluation. -/
theorem summary_partition_witness :
    errorsNonempty (execute envClean cfgOneDay).results ∧
    (((execute envClean cfgOneDay).success = true →
      (execute envClean cfgOneDay).summary.successful +
        (execute envClean cfgOneDay).summary.failed =
        (execute envClean cfgOneDay).summary.total) ∧
     ((execute envClean cfgOneDay).success = false →
      (execute envClean cfgOneDay).summary.successful +
        (execute envClean cfgOneDay).summary.failed =
        (execute envClean cfgOneDay).summary.total + 1)) :=
  ⟨by decide, summary_partition envClean cfgOneDay (by decide)⟩

/-- C3 counterexample: a unit that failed with an empty error message
is not counted by the summary filter, so on an escaping delay
exception the reported failed count is strictly less than the count of
failed units in the partial list plus one. -/
theorem escape_failed_count_cex :
    (execute envEmptyMsgEscape cfgOneDay).summary.failed ≠
      ((execute envEmptyMsgEscape cfgOneDay).results.filter
        (fun e => e.error.isSome)).length + 1 := by
  decide

/-- C3 (amended): if an exception escapes the running phase (the
initial navigation failing, or an inter-unit delay throwing), execute
returns the partial results accumulated so far unchanged, with success
false and the reported failed count equal to the number of failed
units with a non-empty error message in the partial list plus exactly
one. -/
theorem execute_escape_results (env : Env) (cfg : ScrapeConfig)
    (hinit : env.initResult = Except.ok ()) :
    ((∃ m, env.gotoResult = Except.error m) →
      (execute env cfg).success = false ∧ (execute env cfg).results = [] ∧
      (execute env cfg).summary.failed = countFailed (execute env cfg).results + 1) ∧
    (∀ K m, env.gotoResult = Except.ok () → (∀ i, i < K → env.delayResult i = none) →
      env.delayResult K = some m → K < (unitPairs cfg).length →
      (execute env cfg).success = false ∧
      (execute env cfg).results =
        buildEntries env.units cfg.county 0 ((unitPairs cfg).take (K + 1)) ∧
      (execute env cfg).summary.failed = countFailed (execute env cfg).results + 1) := by
  constructor
  · rintro ⟨m, hg⟩
    have hE : execute env cfg = catchResult [] := by
      unfold execute executeRun
      rw [hinit, hg]
    rw [hE]
    exact ⟨rfl, rfl, rfl⟩
  · intro K m hg hclean hK hlen
    have hloop := runLoop_escape env.units env.delayResult cfg.county (unitPairs cfg) 0 K m []
      (fun i hi => by simpa using hclean i hi) (by simpa using hK) hlen
    have hE : execute env cfg =
        catchResult (buildEntries env.units cfg.county 0 ((unitPairs cfg).take (K + 1))) := by
      unfold execute executeRun
      rw [hinit, hg]
      dsimp only
      rw [hloop]
      rfl
    rw [hE]
    exact ⟨rfl, rfl, rfl⟩

/-- C3 witness: the amended theorem applied to an environment whose
first delay throws after one successfully scraped unit. -/
theorem execute_escape_results_witness :
    (execute envDelayEscape cfgOneDay).success = false ∧
    (execute envDelayEscape cfgOneDay).results =
      buildEntries envDelayEscape.units cfgOneDay.county 0 ((unitPairs cfgOneDay).take 1) ∧
    (execute envDelayEscape cfgOneDay).summary.failed =
      countFailed (execute envDelayEscape cfgOneDay).results + 1 :=
  (execute_escape_results envDelayEscape cfgOneDay rfl).2 0 "boom" rfl
    (fun i hi => absurd hi (Nat.not_lt_zero i)) rfl (by decide)

/-- C6 counterexample: after a normal run whose in-try close throws,
the catch block attempts a second close, so close is attempted twice
for a single successful init. -/
theorem close_attempts_cex :
    envCloseFail.initResult = Except.ok () ∧ (executeRun envCloseFail cfgInverted).2 = 2 :=
  ⟨rfl, by decide⟩

/-- C6 (amended): close is attempted at least once on every path and
at most twice; it is attempted exactly twice precisely when the run
reaches the in-try close after completing normally (init and
navigation succeed and no inter-unit delay throws) and that close
itself throws, in which case the reported success is false.  On every
other path, including every abort path, close is attempted exactly
once. -/
theorem close_attempts_bounds (env : Env) (cfg : ScrapeConfig) :
    1 ≤ (executeRun env cfg).2 ∧ (executeRun env cfg).2 ≤ 2 ∧
    ((executeRun env cfg).2 = 2 ↔
      env.initResult = Except.ok () ∧ env.gotoResult = Except.ok () ∧
      (runLoop env.units env.delayResult cfg.county 0 (unitPairs cfg) []).2 = none ∧
      (∃ m, env.closeResult = Except.error m)) ∧
    ((executeRun env cfg).2 = 2 → (executeRun env cfg).1.success = false) := by
  rcases hi : env.initResult with m | u
  · have hE : executeRun env cfg = (catchResult [], 1) := by
      unfold executeRun
      rw [hi]
    rw [hE]
    refine ⟨by simp, by simp, ?_, fun h => absurd h (by simp)⟩
    constructor
    · intro h
      simp at h
    · intro h
      exact absurd h.1 (by simp)
  · rcases hg : env.gotoResult with m | u2
    · have hE : executeRun env cfg = (catchResult [], 1) := by
        unfold executeRun
        rw [hi, hg]
      rw [hE]
      refine ⟨by simp, by simp, ?_, fun h => absurd h (by simp)⟩
      constructor
      · intro h
        simp at h
      · intro h
        exact absurd h.2.1 (by simp)
    · rcases hloop : runLoop env.units env.delayResult cfg.county 0 (unitPairs cfg) [] with
        ⟨results, esc⟩
      rcases esc with _ | m
      · rcases hc : env.closeResult with m | u3
        · have hE : executeRun env cfg = (catchResult results, 2) := by
            unfold executeRun
            rw [hi, hg]
            dsimp only
            rw [hloop]
            dsimp only
            rw [hc]
          rw [hE]
          exact ⟨by simp, by simp, ⟨fun _ => ⟨rfl, rfl, rfl, m, rfl⟩, fun _ => rfl⟩, fun _ => rfl⟩
        · have hE : executeRun env cfg =
              (⟨true, results, ⟨results.length, countSuccessful results, countFailed results⟩⟩, 1) := by
            unfold executeRun
            rw [hi, hg]
            dsimp only
            rw [hloop]
            dsimp only
            rw [hc]
          rw [hE]
          refine ⟨by simp, by simp, ?_, fun h => absurd h (by simp)⟩
          constructor
          · intro h
            simp at h
          · intro h
            obtain ⟨-, -, -, m2, hm⟩ := h
            exact absurd hm (by simp)
      · have hE : executeRun env cfg = (catchResult results, 1) := by
          unfold executeRun
          rw [hi, hg]
          dsimp only
          rw [hloop]
        rw [hE]
        refine ⟨by simp, by simp, ?_, fun h => absurd h (by simp)⟩
        constructor
        · intro h
          simp at h
        · intro h
          exact absurd h.2.2.1 (by simp)

/-- C6 witness: the amended theorem instantiated at a clean
environment, where both directions of the characterization are
non-vacuous (the loop completes normally and the close succeeds, so
exactly one attempt is made). -/
theorem close_attempts_bounds_witness :
    1 ≤ (executeRun envClean cfgOneDay).2 ∧ (executeRun envClean cfgOneDay).2 ≤ 2 ∧
    ((executeRun envClean cfgOneDay).2 = 2 ↔
      envClean.initResult = Except.ok () ∧ envClean.gotoResult = Except.ok () ∧
      (runLoop envClean.units envClean.delayResult cfgOneDay.county 0
        (unitPairs cfgOneDay) []).2 = none ∧
      (∃ m, envClean.closeResult = Except.error m)) ∧
    ((executeRun envClean cfgOneDay).2 = 2 →
      (executeRun envClean cfgOneDay).1.success = false) :=
  close_attempts_bounds envClean cfgOneDay

/-- C9: when exactly one of startDate and endDate is present the
handler ignores it and computes the same range as with no explicit
dates, ending today; the explicit range is used only when both are
present; and an absent daysBack behaves as daysBack 30. -/
theorem handler_range_rules (sd ed : Option String) (db : Option Nat) (today : Ymd) :
    (sd.isSome ≠ ed.isSome →
      computeDateRange sd ed db today = computeDateRange none none db today ∧
      (computeDateRange sd ed db today).2 = formatYmd today) ∧
    ((truthyS sd && truthyS ed) = true →
      sd.isSome = true ∧ ed.isSome = true ∧
      computeDateRange sd ed db today = (sd.getD "", ed.getD "")) ∧
    computeDateRange sd ed none today = computeDateRange sd ed (some 30) today := by
  refine ⟨?_, ?_, ?_⟩
  · intro h
    have hfalse : (truthyS sd && truthyS ed) = false := by
      rcases sd with _ | s <;> rcases ed with _ | e <;> simp [truthyS] at h ⊢
    constructor
    · unfold computeDateRange
      rw [hfalse]
      rfl
    · unfold computeDateRange
      rw [hfalse]
      rfl
  · intro h
    have hh : truthyS sd = true ∧ truthyS ed = true := by simpa using h
    have hs : truthyS sd = true := hh.1
    have he : truthyS ed = true := hh.2
    refine ⟨?_, ?_, ?_⟩
    · rcases sd with _ | s
      · simp [truthyS] at hs
      · rfl
    · rcases ed with _ | e
      · simp [truthyS] at he
      · rfl
    · unfold computeDateRange
      rw [if_pos h]
  · unfold computeDateRange
    cases truthyS sd && truthyS ed
    · rfl
    · rfl

/-- C9 witness: the theorem instantiated with only a startDate
present, a no-daysBack request and a concrete today. -/
theorem handler_range_rules_witness :
    ((some "05/05/2024" : Option String).isSome ≠ (none : Option String).isSome) ∧
    (computeDateRange (some "05/05/2024") none none ⟨2024, 6, 1⟩ =
      computeDateRange none none none ⟨2024, 6, 1⟩ ∧
     (computeDateRange (some "05/05/2024") none none ⟨2024, 6, 1⟩).2 =
       formatYmd ⟨2024, 6, 1⟩) :=
  ⟨by decide,
   (handler_range_rules (some "05/05/2024") none none ⟨2024, 6, 1⟩).1 (by decide)⟩

/-- C10 counterexample: with an inverted range and a successfully
opened session whose initial navigation then fails, execute reports
success false and one synthetic failure, not success true with an
all-zero summary as claimed. -/
theorem inverted_range_cex :
    envGotoFail.initResult = Except.ok () ∧
    parseDate cfgInverted.startDate = some ⟨2024, 1, 2⟩ ∧
    parseDate cfgInverted.endDate = some ⟨2024, 1, 1⟩ ∧
    dayNum (⟨2024, 1, 1⟩ : Ymd) < dayNum (⟨2024, 1, 2⟩ : Ymd) ∧
    (execute envGotoFail cfgInverted).success = false ∧
    (execute envGotoFail cfgInverted).summary = ⟨0, 0, 1⟩ :=
  ⟨rfl, by decide, by decide, by decide, rfl, rfl⟩

/-- C10 (amended): if the start date parses to a calendar day strictly
after the end date, generateDateRange returns the empty list, and when
additionally the session opens and no session-level exception occurs
(navigation and close succeed) execute completes with success true, an
empty results list and an all-zero summary, so an inverted range is
not reported as an error. -/
theorem inverted_range_empty (env : Env) (cfg : ScrapeConfig) (ds de : Ymd)
    (hs : parseDate cfg.startDate = some ds) (he : parseDate cfg.endDate = some de)
    (hlt : dayNum de < dayNum ds)
    (hinit : env.initResult = Except.ok ()) (hgoto : env.gotoResult = Except.ok ())
    (hclose : env.closeResult = Except.ok ()) :
    generateDateRange cfg.startDate cfg.endDate = [] ∧
    (execute env cfg).success = true ∧ (execute env cfg).results = [] ∧
    (execute env cfg).summary = ⟨0, 0, 0⟩ := by
  have hempty : generateDateRange cfg.startDate cfg.endDate = [] := by
    unfold generateDateRange
    rw [hs, he]
    dsimp only
    have h0 : dayNum de + 1 - dayNum ds = 0 := by omega
    rw [h0]
    rfl
  have hpairs : unitPairs cfg = [] := by
    unfold unitPairs
    rw [hempty]
    rfl
  have hloop : runLoop env.units env.delayResult cfg.county 0 (unitPairs cfg) [] = ([], none) := by
    rw [hpairs]
    rfl
  have hE : execute env cfg = ⟨true, [], ⟨0, 0, 0⟩⟩ := by
    unfold execute executeRun
    rw [hinit, hgoto]
    dsimp only
    rw [hloop]
    dsimp only
    rw [hclose]
    rfl
  rw [hE]
  exact ⟨hempty, rfl, rfl, rfl⟩

/-- C10 witness: the amended theorem instantiated at a clean
environment and the inverted configuration. -/
theorem inverted_range_empty_witness :
    parseDate cfgInverted.startDate = some ⟨2024, 1, 2⟩ ∧
    parseDate cfgInverted.endDate = some ⟨2024, 1, 1⟩ ∧
    dayNum (⟨2024, 1, 1⟩ : Ymd) < dayNum (⟨2024, 1, 2⟩ : Ymd) ∧
    (generateDateRange cfgInverted.startDate cfgInverted.endDate = [] ∧
     (execute envClean cfgInverted).success = true ∧
     (execute envClean cfgInverted).results = [] ∧
     (execute envClean cfgInverted).summary = ⟨0, 0, 0⟩) :=
  ⟨by decide, by decide, by decide,
   inverted_range_empty envClean cfgInverted ⟨2024, 1, 2⟩ ⟨2024, 1, 1⟩
     (by decide) (by decide) (by decide) rfl rfl rfl⟩

end Landmark
